import Mathlib

/-!
# Verification of the autophone build cache and fleet orchestrator

Shallow embedding of the relevant parts of `builds.py` (the `BuildCache`
class) and `autophone.py` (the `AutoPhone` class), together with proofs
that settle the frozen claims about this code.

Filesystem state is made explicit: the build-cache directory is a list of
entries, one per subdirectory, recording which files each one holds and
the modification time of its `lastused` marker.  Wall-clock time is a
`Nat` (seconds); network fetches are oracles passed in as data.
-/

namespace Autophone

/-- One subdirectory of the build-cache directory (`BuildCache.cache_dir`),
as manipulated by `BuildCache.get` and `BuildCache.clean_cache` in
`builds.py`.  `key` is the directory name (base64 of the build URL);
`lastused` is the mtime of the `lastused` marker file, `none` when the
marker does not exist; the `has*` fields record which artifacts exist in
the directory. -/
structure Entry where
  key : String
  hasApk : Bool
  lastused : Option Nat
  hasSymbols : Bool
  hasTests : Bool
  hasRobocop : Bool
  hasFennecIds : Bool
deriving DecidableEq, Repr

/-- `BuildCache.MAX_NUM_BUILDS` (builds.py line 111). -/
def MAX_NUM_BUILDS : Nat := 20

/-- `BuildCache.EXPIRE_AFTER_SECONDS` (builds.py line 112). -/
def EXPIRE_AFTER_SECONDS : Nat := 60 * 60 * 24

/-- The `lastused` mtime used as sort key in `clean_cache`
(`os.stat(lastused_path(x)).st_mtime`); `clean_cache` only evaluates it
on entries whose marker exists. -/
def lu (e : Entry) : Nat := e.lastused.getD 0

/-- `keep_build(d)` from `BuildCache.clean_cache` (builds.py lines
319-331): an entry is kept if its key is in `preserve` (the code tests
`preserve and d in preserve`, so an empty preserve list short-circuits),
or it has no `lastused` marker, or the marker is at most
`EXPIRE_AFTER_SECONDS` old.  Python computes
`now - fromtimestamp(mtime) <= timedelta(...)`; a marker from the future
gives a negative difference, which is also "kept" — truncated `Nat`
subtraction models this correctly. -/
def keep_build (now : Nat) (preserve : List String) (e : Entry) : Bool :=
  if !preserve.isEmpty && decide (e.key ∈ preserve) then true
  else
    match e.lastused with
    | none => true
    | some m => now - m ≤ EXPIRE_AFTER_SECONDS

/-- The `builds` list of `clean_cache` (builds.py lines 333-335): the
entries not kept by `keep_build`, sorted by `lastused` mtime (Python's
`list.sort(key=...)` is a stable sort, as is `List.mergeSort`). -/
def clean_cache_eligible (now : Nat) (preserve : List String) (cache : List Entry) :
    List Entry :=
  (cache.filter (fun e => !keep_build now preserve e)).mergeSort
    (fun a b => lu a ≤ lu b)

/-- The keys removed by the `while len(builds) > MAX_NUM_BUILDS` loop of
`clean_cache` (builds.py lines 336-339): the loop pops and deletes the
front (oldest) element until at most `MAX_NUM_BUILDS` remain, i.e. it
removes the first `len - MAX_NUM_BUILDS` entries of the sorted list. -/
def clean_cache_removed_keys (now : Nat) (preserve : List String) (cache : List Entry) :
    List String :=
  let builds := clean_cache_eligible now preserve cache
  (builds.take (builds.length - MAX_NUM_BUILDS)).map Entry.key

/-- `BuildCache.clean_cache(preserve)` (builds.py lines 315-339) as a
function on the cache-directory state: the directories whose names were
removed by `shutil.rmtree` are gone, everything else is untouched. -/
def clean_cache (now : Nat) (preserve : List String) (cache : List Entry) :
    List Entry :=
  let removed := clean_cache_removed_keys now preserve cache
  cache.filter (fun e => !decide (e.key ∈ removed))

theorem keep_build_of_preserved (now : Nat) (preserve : List String) (e : Entry)
    (hp : e.key ∈ preserve) : keep_build now preserve e = true := by
  have hne : preserve.isEmpty = false := by
    cases preserve with
    | nil => cases hp
    | cons a l => rfl
  simp [keep_build, hne, hp]

theorem not_removed_of_preserved (now : Nat) (preserve : List String) (k : String)
    (hp : k ∈ preserve) : k ∉ clean_cache_removed_keys now preserve cache := by
  intro hmem
  rcases List.mem_map.mp hmem with ⟨r, hr, hkey⟩
  have hr' : r ∈ clean_cache_eligible now preserve cache := List.mem_of_mem_take hr
  have hr'' : r ∈ cache.filter (fun e => !keep_build now preserve e) :=
    (List.mergeSort_perm (cache.filter (fun e => !keep_build now preserve e))
      (fun a b => decide (lu a ≤ lu b))).mem_iff.mp hr'
  have hfalse : (!keep_build now preserve r) = true := (List.mem_filter.mp hr'').2
  have : keep_build now preserve r = true :=
    keep_build_of_preserved now preserve r (hkey ▸ hp)
  simp [this] at hfalse

/-- **C1.** `clean_cache(preserve)` never removes a cache entry whose key
is in `preserve`, no matter how old its `lastused` marker is: a
preserved key is kept by `keep_build` before any age test, so it never
reaches the eviction list. -/
theorem clean_cache_never_removes_preserved (now : Nat) (preserve : List String)
    (cache : List Entry) (e : Entry) (he : e ∈ cache) (hp : e.key ∈ preserve) :
    e ∈ clean_cache now preserve cache := by
  unfold clean_cache
  refine List.mem_filter.mpr ⟨he, ?_⟩
  simp only [Bool.not_eq_true', decide_eq_false_iff_not]
  exact not_removed_of_preserved now preserve e.key hp

/-- Witness for C1 at a concrete cache state: an entry whose `lastused`
marker is far older than `EXPIRE_AFTER_SECONDS` but whose key is
preserved survives `clean_cache`. -/
theorem clean_cache_never_removes_preserved_witness :
    (⟨"k1", true, some 0, false, false, false, false⟩ : Entry) ∈
        [(⟨"k1", true, some 0, false, false, false, false⟩ : Entry)] ∧
      "k1" ∈ ["k1"] ∧
      (⟨"k1", true, some 0, false, false, false, false⟩ : Entry) ∈
        clean_cache 10000000 ["k1"]
          [⟨"k1", true, some 0, false, false, false, false⟩] :=
  ⟨by decide, by decide,
    clean_cache_never_removes_preserved 10000000 ["k1"]
      [⟨"k1", true, some 0, false, false, false, false⟩]
      ⟨"k1", true, some 0, false, false, false, false⟩ (by decide) (by decide)⟩

/-- The comparator `clean_cache` sorts with (`key=lambda x: x[1]`, i.e. by
`lastused` mtime). -/
def luLe (a b : Entry) : Bool := decide (lu a ≤ lu b)

theorem luLe_trans (a b c : Entry) : luLe a b → luLe b c → luLe a c := by
  simp only [luLe, decide_eq_true_eq]
  exact Nat.le_trans

theorem luLe_total (a b : Entry) : luLe a b || luLe b a := by
  simp only [luLe, Bool.or_eq_true, decide_eq_true_eq]
  exact Nat.le_total _ _

theorem clean_cache_eligible_perm (now : Nat) (preserve : List String)
    (cache : List Entry) :
    List.Perm (clean_cache_eligible now preserve cache)
      (cache.filter (fun e => !keep_build now preserve e)) :=
  List.mergeSort_perm _ _

theorem clean_cache_eligible_key_nodup (now : Nat) (preserve : List String)
    (cache : List Entry) (hnd : (cache.map Entry.key).Nodup) :
    ((clean_cache_eligible now preserve cache).map Entry.key).Nodup := by
  have h1 : ((cache.filter (fun e => !keep_build now preserve e)).map Entry.key).Nodup :=
    ((List.filter_sublist cache).map Entry.key).nodup hnd
  exact (((clean_cache_eligible_perm now preserve cache).map Entry.key).nodup_iff).mpr h1

theorem clean_cache_eligible_sorted (now : Nat) (preserve : List String)
    (cache : List Entry) :
    (clean_cache_eligible now preserve cache).Pairwise (fun a b => luLe a b) := by
  unfold clean_cache_eligible
  exact List.sorted_mergeSort luLe_trans luLe_total _

/-- **C2.** After `clean_cache(preserve)`, at most `MAX_NUM_BUILDS`
entries that are non-preserved, marker-bearing and older than
`EXPIRE_AFTER_SECONDS` (i.e. not kept by `keep_build`) remain; the number
of removed keys is exactly the excess over `MAX_NUM_BUILDS`; and every
removed entry's `lastused` mtime is at most that of every surviving
eligible entry — the oldest ones are removed first.  (Keys of distinct
cache subdirectories are distinct, hence the `Nodup` hypothesis.) -/
theorem clean_cache_bound_and_oldest (now : Nat) (preserve : List String)
    (cache : List Entry) (hnd : (cache.map Entry.key).Nodup) :
    ((clean_cache now preserve cache).filter
        (fun e => !keep_build now preserve e)).length ≤ MAX_NUM_BUILDS ∧
    (clean_cache_removed_keys now preserve cache).length =
      (clean_cache_eligible now preserve cache).length - MAX_NUM_BUILDS ∧
    (∀ e ∈ cache, e.key ∈ clean_cache_removed_keys now preserve cache →
      ∀ e' ∈ clean_cache now preserve cache, !keep_build now preserve e' →
        lu e ≤ lu e') := by
  set P : Entry → Bool := fun e => !keep_build now preserve e with hP
  set builds := clean_cache_eligible now preserve cache with hbuilds
  set n := builds.length with hn
  set k := n - MAX_NUM_BUILDS with hk
  set removedE := builds.take k with hremovedE
  set keptPart := builds.drop k with hkeptPart
  have hsplit : removedE ++ keptPart = builds := List.take_append_drop k builds
  have hrmkeys : clean_cache_removed_keys now preserve cache = removedE.map Entry.key := rfl
  set removedKeys := removedE.map Entry.key with hrk
  have hbnodup : (builds.map Entry.key).Nodup :=
    clean_cache_eligible_key_nodup now preserve cache hnd
  have hdisj : ∀ x ∈ keptPart, x.key ∉ removedKeys := by
    intro x hx hmem
    have : (removedE.map Entry.key ++ keptPart.map Entry.key).Nodup := by
      rw [← List.map_append, hsplit]; exact hbnodup
    rcases List.nodup_append.mp this with ⟨-, -, hdj⟩
    exact hdj hmem (List.mem_map_of_mem Entry.key hx)
  have hmem_removedE_of_key : ∀ e ∈ cache, e.key ∈ removedKeys → e ∈ removedE := by
    intro e he hkey
    rcases List.mem_map.mp hkey with ⟨r, hr, hrkey⟩
    have hrb : r ∈ builds := List.mem_of_mem_take hr
    have hrc : r ∈ cache :=
      (List.mem_filter.mp (((clean_cache_eligible_perm now preserve cache).mem_iff).mp hrb)).1
    have : r = e := List.inj_on_of_nodup_map hnd hrc he hrkey
    exact this ▸ hr
  have hkept_eq : clean_cache now preserve cache =
      cache.filter (fun e => !decide (e.key ∈ removedKeys)) := rfl
  -- the surviving eligible entries are, up to permutation, the drop-part
  have hperm : List.Perm ((clean_cache now preserve cache).filter P) keptPart := by
    rw [hkept_eq, List.filter_filter]
    have hcomm : List.filter (fun a => P a && !decide (a.key ∈ removedKeys)) cache =
        (cache.filter P).filter (fun e => !decide (e.key ∈ removedKeys)) := by
      rw [List.filter_filter]
      exact List.filter_congr (fun e _ => Bool.and_comm _ _)
    rw [hcomm]
    have h2 : List.Perm (builds.filter (fun e => !decide (e.key ∈ removedKeys)))
        ((cache.filter P).filter (fun e => !decide (e.key ∈ removedKeys))) :=
      (clean_cache_eligible_perm now preserve cache).filter _
    refine h2.symm.trans (List.Perm.of_eq ?_)
    rw [← hsplit, List.filter_append]
    have hrm_nil : removedE.filter (fun e => !decide (e.key ∈ removedKeys)) = [] := by
      apply List.filter_eq_nil_iff.mpr
      intro x hx
      simp only [Bool.not_eq_true', decide_eq_false_iff_not, Decidable.not_not]
      exact List.mem_map_of_mem Entry.key hx
    have hkp_self : keptPart.filter (fun e => !decide (e.key ∈ removedKeys)) = keptPart := by
      apply List.filter_eq_self.mpr
      intro x hx
      simp only [Bool.not_eq_true', decide_eq_false_iff_not]
      exact hdisj x hx
    rw [hrm_nil, hkp_self, List.nil_append]
  refine ⟨?_, ?_, ?_⟩
  · have hlen : ((clean_cache now preserve cache).filter P).length = keptPart.length :=
      hperm.length_eq
    have : keptPart.length = n - k := by
      rw [hkeptPart, List.length_drop]
    omega
  · rw [hrmkeys, List.length_map, hremovedE, List.length_take]
    omega
  · intro e he hkey e' he' hP'
    have heR : e ∈ removedE := hmem_removedE_of_key e he hkey
    have he'k : e' ∈ keptPart := by
      have he'f : e' ∈ (clean_cache now preserve cache).filter P :=
        List.mem_filter.mpr ⟨he', hP'⟩
      exact hperm.mem_iff.mp he'f
    have hpw : builds.Pairwise (fun a b => luLe a b) :=
      clean_cache_eligible_sorted now preserve cache
    rw [← hsplit] at hpw
    rcases List.pairwise_append.mp hpw with ⟨-, -, hcross⟩
    have := hcross e heR e' he'k
    simpa [luLe] using this

/-- Witness for C2 at a concrete cache state with two expired entries
and distinct keys. -/
theorem clean_cache_bound_and_oldest_witness :
    (([(⟨"a", true, some 0, false, false, false, false⟩ : Entry),
       ⟨"b", true, some 5, false, false, false, false⟩].map Entry.key).Nodup) ∧
    (((clean_cache 10000000 []
        [⟨"a", true, some 0, false, false, false, false⟩,
         ⟨"b", true, some 5, false, false, false, false⟩]).filter
        (fun e => !keep_build 10000000 [] e)).length ≤ MAX_NUM_BUILDS ∧
      (clean_cache_removed_keys 10000000 []
        [⟨"a", true, some 0, false, false, false, false⟩,
         ⟨"b", true, some 5, false, false, false, false⟩]).length =
        (clean_cache_eligible 10000000 []
          [⟨"a", true, some 0, false, false, false, false⟩,
           ⟨"b", true, some 5, false, false, false, false⟩]).length - MAX_NUM_BUILDS ∧
      (∀ e ∈ [(⟨"a", true, some 0, false, false, false, false⟩ : Entry),
              ⟨"b", true, some 5, false, false, false, false⟩],
        e.key ∈ clean_cache_removed_keys 10000000 []
          [⟨"a", true, some 0, false, false, false, false⟩,
           ⟨"b", true, some 5, false, false, false, false⟩] →
        ∀ e' ∈ clean_cache 10000000 []
          [⟨"a", true, some 0, false, false, false, false⟩,
           ⟨"b", true, some 5, false, false, false, false⟩],
          !keep_build 10000000 [] e' → lu e ≤ lu e')) :=
  ⟨by decide,
    clean_cache_bound_and_oldest 10000000 []
      [⟨"a", true, some 0, false, false, false, false⟩,
       ⟨"b", true, some 5, false, false, false, false⟩] (by decide)⟩

/-! ## `base64.b64encode` — the cache key of a build URL

`BuildCache.get` names a build's cache subdirectory
`base64.b64encode(buildurl)` (builds.py line 222).  Standard base64 with
padding, over the URL's bytes (a Python 2 `str` is a byte string; we take
the UTF-8 bytes, which for the ASCII build URLs are the same bytes). -/

def base64Alphabet : List Char :=
  "ABCDEFGHIJKLMNOPQRSTUVWXYZabcdefghijklmnopqrstuvwxyz0123456789+/".data

def b64Char (n : Nat) : Char := base64Alphabet.getD n 'A'

def b64Group : List Nat → List Char
  | [a, b, c] => [b64Char (a / 4), b64Char (a % 4 * 16 + b / 16),
                  b64Char (b % 16 * 4 + c / 64), b64Char (c % 64)]
  | [a, b] => [b64Char (a / 4), b64Char (a % 4 * 16 + b / 16),
               b64Char (b % 16 * 4), '=']
  | [a] => [b64Char (a / 4), b64Char (a % 4 * 16), '=', '=']
  | _ => []

def b64EncodeBytes : List Nat → List Char
  | a :: b :: c :: rest => b64Group [a, b, c] ++ b64EncodeBytes rest
  | rest => b64Group rest

/-- The byte sequence of a Python 2 `str`. -/
def strBytes (s : String) : List Nat :=
  (s.data.flatMap String.utf8EncodeChar).map (fun b => b.toNat)

def b64encode (s : String) : String :=
  ⟨b64EncodeBytes (strBytes s)⟩

/-! ## `BuildCache.get` (builds.py lines 219-313)

Network fetches (`urllib.urlretrieve`) are oracles supplied as data: each
fetch either succeeds or raises `IOError`; for the zip packages the
retrieved file may additionally be a corrupt archive
(`zipfile.BadZipfile`).  The cache directory is the `Entry` list from
above; temporary files (`tempfile.NamedTemporaryFile`) never live in the
cache directory and are unlinked on failure, so they do not appear in the
state. -/

/-- Python exceptions that the embedded code can raise. -/
inductive PyErr where
  | nameError (msg : String)
  | attributeError (attr : String)
  | badZipfile
  | unboundLocal (name : String)
deriving DecidableEq, Repr

/-- The value found in an `IOError`'s `strerror` attribute.  For the
errors `urllib.urlretrieve` raises in Python 2 this is `None`, a plain
string, another `EnvironmentError` (e.g. `socket.error`, which has a
`strerror` attribute of its own), or a non-environment exception such as
`ftplib.error_perm` (which has a `message` attribute but no
`strerror`). -/
inductive PyStrerror where
  | pynone
  | str (s : String)
  | exc (message : String)
  | envErr (strerror : PyStrerror) (message : String)
deriving DecidableEq, Repr

/-- Python attribute lookup `v.strerror`: only `EnvironmentError`-like
values have it; on anything else the lookup raises `AttributeError`. -/
def getattrStrerror : PyStrerror → Option PyStrerror
  | .envErr st _ => some st
  | _ => none

/-- Python attribute lookup `v.message`: Python 2 exceptions carry it,
`None` and `str` values do not. -/
def getattrMessage : PyStrerror → Option String
  | .exc m => some m
  | .envErr _ m => some m
  | _ => none

/-- Outcome of one `urllib.urlretrieve` call. -/
inductive FetchResult where
  | ok
  | ioErr (strerror : PyStrerror)
deriving DecidableEq, Repr

/-- Outcome of retrieving a file that is then opened as a zip archive. -/
inductive ZipFetchResult where
  | ok
  | ioErr (strerror : PyStrerror)
  | badZip
deriving DecidableEq, Repr

/-- The network's answers for the downloads one `get` call can issue. -/
structure GetEnv where
  apkFetch : FetchResult
  symFetch : ZipFetchResult
  testsFetch : ZipFetchResult
  robocopFetch : FetchResult
  fennecIdsFetch : FetchResult
deriving Repr

/-- Cache-directory state plus the observation probes: how many times the
primary artifact was downloaded (`urllib.urlretrieve(buildurl, ...)`
calls) and what was logged. -/
structure CacheFS where
  entries : List Entry
  downloadCount : Nat
  log : List String
deriving Repr

/-- Default `cache_dir` of `BuildCache.__init__` (builds.py line 122). -/
def cache_dir : String := "builds"

/-- A subdirectory just created by `os.makedirs`: no files in it yet. -/
def Entry.fresh (k : String) : Entry :=
  ⟨k, false, none, false, false, false, false⟩

/-- Update the cache subdirectory named `k` (leaving its name fixed). -/
def setEntry (k : String) (f : Entry → Entry) (es : List Entry) : List Entry :=
  es.map (fun e => if e.key = k then f e else e)

/-- `re.sub('.apk$', repl, url)`: the pattern matches any character
followed by `apk` at the end of the string; on a match those four
characters are replaced by `repl`, otherwise the url is unchanged. -/
def subApkSuffix (url repl : String) : String :=
  if url.endsWith "apk" && decide (4 ≤ url.length) then url.dropRight 4 ++ repl
  else url

/-- `urlparse.urljoin(buildurl, name)` for a relative file name: the last
path segment of `buildurl` is replaced by `name`. -/
def urljoinLast (url name : String) : String :=
  ⟨(url.data.reverse.dropWhile (fun c => c ≠ '/')).reverse⟩ ++ name

/-- builds.py lines 228-240: download the primary artifact if forced or
absent.  The download goes to a temporary file; on `IOError` the
temporary file is unlinked, the error is logged and `get` returns `None`
(modelled by the `false` flag), so `build.apk` never appears; on success
the temporary file is renamed onto `build.apk`. -/
def getPrimary (env : GetEnv) (buildurl build_dir : String) (force : Bool)
    (fs : CacheFS) : CacheFS × Bool :=
  if force || !(fs.entries.any (fun e => e.key == build_dir && e.hasApk)) then
    match env.apkFetch with
    | .ioErr _ =>
      ({ fs with downloadCount := fs.downloadCount + 1,
                 log := fs.log ++ ["IO Error retrieving build: " ++ buildurl ++ "."] },
       false)
    | .ok =>
      ({ fs with
           entries := setEntry build_dir (fun e => { e with hasApk := true }) fs.entries,
           downloadCount := fs.downloadCount + 1 },
       true)
  else (fs, true)

/-- builds.py line 241: `file(os.path.join(cache_build_dir, 'lastused'), 'w')`
(re)creates the marker, setting its mtime to the current time. -/
def touchLastused (now : Nat) (build_dir : String) (fs : CacheFS) : CacheFS :=
  { fs with
      entries := setEntry build_dir (fun e => { e with lastused := some now }) fs.entries }

/-- builds.py lines 253-258: the `except IOError` handler of the symbols
fetch.  It evaluates `ioerror.strerror.strerror.message`; each attribute
lookup can itself raise `AttributeError`, which is not caught by any
surrounding handler. -/
def symbolsIOErrorHandler (symbols_url : String) (strerror : PyStrerror)
    (fs : CacheFS) : CacheFS × Except PyErr Unit :=
  match getattrStrerror strerror with
  | none => (fs, .error (.attributeError "strerror"))
  | some v =>
    match getattrMessage v with
    | none => (fs, .error (.attributeError "message"))
    | some m =>
      if decide (List.IsInfix "550 Failed to change directory".data m.data) then
        ({ fs with log := fs.log ++ ["No symbols found: " ++ symbols_url ++ "."] }, .ok ())
      else
        ({ fs with log := fs.log ++ ["IO Error retrieving symbols: " ++ symbols_url ++ "."] },
         .ok ())

/-- builds.py lines 242-266: best-effort fetch and unpack of the
crash-reporter symbols zip if forced or absent.  `zipfile.BadZipfile` is
caught and only logged; `IOError` enters the handler above. -/
def getSymbols (env : GetEnv) (buildurl build_dir : String) (force : Bool)
    (fs : CacheFS) : CacheFS × Except PyErr Unit :=
  let symbols_url := subApkSuffix buildurl ".crashreporter-symbols.zip"
  let symPresent := fs.entries.any (fun e => e.key == build_dir && e.hasSymbols)
  if force || !symPresent then
    match env.symFetch with
    | .ok =>
      ({ fs with
           entries := setEntry build_dir (fun e => { e with hasSymbols := true }) fs.entries },
       .ok ())
    | .badZip =>
      ({ fs with
           log := fs.log ++
             ["Ignoring zipfile.BadZipFile Error retrieving symbols: " ++ symbols_url ++ "."] },
       .ok ())
    | .ioErr strerror => symbolsIOErrorHandler symbols_url strerror fs
  else (fs, .ok ())

/-- builds.py lines 267-312: when unit tests are enabled and the tests
directory is forced or absent, fetch the tests zip (IOError logged and
`get` returns `None`; a corrupt tests zip raises `BadZipfile`, since
`zipfile.ZipFile` is called outside any `try`), then `robocop.apk` and
`fennec_ids.txt` (IOError on either: logged, `get` returns `None`).
The returned flag is `false` when `get` must return `None`. -/
def getTests (env : GetEnv) (buildurl build_dir : String)
    (force enable_unittests : Bool) (fs : CacheFS) : CacheFS × Except PyErr Bool :=
  if enable_unittests then
    let testsPresent := fs.entries.any (fun e => e.key == build_dir && e.hasTests)
    if (force || !testsPresent) && enable_unittests then
      let tests_url := subApkSuffix buildurl ".tests.zip"
      match env.testsFetch with
      | .ioErr _ =>
        ({ fs with log := fs.log ++ ["IO Error retrieving tests: " ++ tests_url ++ "."] },
         .ok false)
      | .badZip => (fs, .error .badZipfile)
      | .ok =>
        let fs := { fs with
          entries := setEntry build_dir (fun e => { e with hasTests := true }) fs.entries }
        match env.robocopFetch with
        | .ioErr _ =>
          ({ fs with log := fs.log ++
               ["IO Error retrieving robocop.apk: " ++ urljoinLast buildurl "robocop.apk" ++ "."] },
           .ok false)
        | .ok =>
          let fs := { fs with
            entries := setEntry build_dir (fun e => { e with hasRobocop := true }) fs.entries }
          match env.fennecIdsFetch with
          | .ioErr _ =>
            ({ fs with log := fs.log ++
                 ["IO Error retrieving fennec_ids.txt: " ++
                   urljoinLast buildurl "fennec_ids.txt" ++ "."] },
             .ok false)
          | .ok =>
            ({ fs with
                 entries := setEntry build_dir (fun e => { e with hasFennecIds := true })
                   fs.entries },
             .ok true)
    else (fs, .ok true)
  else (fs, .ok true)

/-- The download phases of `BuildCache.get` that run after the eviction
sweep and `os.makedirs` (builds.py lines 228-313), on the entry named
`build_dir`: ensure the primary artifact, touch `lastused`, best-effort
symbols, optional tests.  The `Except` layer carries uncaught Python
exceptions; `.ok none` is the code's `return None`. -/
def getAfterMakedirs (now : Nat) (env : GetEnv) (buildurl build_dir : String)
    (enable_unittests force : Bool) (fs : CacheFS) :
    CacheFS × Except PyErr (Option String) :=
  match getPrimary env buildurl build_dir force fs with
  | (fs, false) => (fs, .ok none)
  | (fs, true) =>
    let fs := touchLastused now build_dir fs
    match getSymbols env buildurl build_dir force fs with
    | (fs, .error e) => (fs, .error e)
    | (fs, .ok ()) =>
      match getTests env buildurl build_dir force enable_unittests fs with
      | (fs, .error e) => (fs, .error e)
      | (fs, .ok false) => (fs, .ok none)
      | (fs, .ok true) => (fs, .ok (some (cache_dir ++ "/" ++ build_dir)))

/-- `BuildCache.get(buildurl, enable_unittests, force)` (builds.py lines
219-313).  Override mode returns the override directory at once.
Otherwise: compute the cache key, run the eviction sweep preserving it,
create the entry directory if missing, and run the download phases. -/
def get (override_build_dir : Option String) (now : Nat) (env : GetEnv)
    (buildurl : String) (enable_unittests force : Bool) (fs : CacheFS) :
    CacheFS × Except PyErr (Option String) :=
  match override_build_dir with
  | some d => (fs, .ok (some d))
  | none =>
    let build_dir := b64encode buildurl
    let fs := { fs with entries := clean_cache now [build_dir] fs.entries }
    let fs :=
      if fs.entries.any (fun e => e.key == build_dir) then fs
      else { fs with entries := fs.entries ++ [Entry.fresh build_dir] }
    getAfterMakedirs now env buildurl build_dir enable_unittests force fs

/-! ### Helper lemmas about the `get` phases -/

theorem find?_filter_of_keep {α : Type} {p q : α → Bool} (l : List α)
    (h : ∀ a, p a = true → q a = true) :
    (l.filter q).find? p = l.find? p := by
  induction l with
  | nil => rfl
  | cons a l ih =>
    by_cases hp : p a = true
    · rw [List.filter_cons, if_pos (h a hp)]
      rw [List.find?_cons_of_pos _ hp, List.find?_cons_of_pos _ hp]
    · by_cases hq : q a = true
      · rw [List.filter_cons, if_pos hq, List.find?_cons_of_neg _ hp,
            List.find?_cons_of_neg _ hp, ih]
      · rw [List.filter_cons, if_neg hq, List.find?_cons_of_neg _ hp, ih]

theorem clean_cache_find?_preserved (now : Nat) (k : String) (cache : List Entry) :
    (clean_cache now [k] cache).find? (fun e => e.key == k) =
      cache.find? (fun e => e.key == k) := by
  unfold clean_cache
  apply find?_filter_of_keep
  intro a ha
  have hk : a.key = k := by simpa using ha
  simp only [Bool.not_eq_true', decide_eq_false_iff_not]
  rw [hk]
  exact not_removed_of_preserved now [k] k (by simp)

theorem find?_setEntry_self (k : String) (f : Entry → Entry)
    (hf : ∀ e, (f e).key = e.key) (es : List Entry) :
    (setEntry k f es).find? (fun e => e.key == k) =
      (es.find? (fun e => e.key == k)).map f := by
  induction es with
  | nil => rfl
  | cons a es ih =>
    by_cases h : a.key = k
    · have hfa : ((f a).key == k) = true := by simp [hf, h]
      have h2 : (a.key == k) = true := by simp [h]
      simp only [setEntry, List.map_cons, if_pos h, List.find?]
      rw [hfa, h2]
      rfl
    · have h2 : (a.key == k) = false := by simp [h]
      simp only [setEntry, List.map_cons, if_neg h, List.find?]
      rw [h2]
      exact ih

theorem getSymbols_preserves (env : GetEnv) (u k : String) (force : Bool)
    (fs : CacheFS) :
    ((getSymbols env u k force fs).1).downloadCount = fs.downloadCount ∧
    (((getSymbols env u k force fs).1).entries.find? (fun e => e.key == k)).map
        Entry.lastused =
      (fs.entries.find? (fun e => e.key == k)).map Entry.lastused := by
  unfold getSymbols
  match env.symFetch with
  | .ok =>
    dsimp only
    split
    · refine ⟨rfl, ?_⟩
      dsimp only
      rw [find?_setEntry_self k (fun e => { e with hasSymbols := true }) (fun e => rfl)]
      cases fs.entries.find? (fun e => e.key == k) <;> rfl
    · exact ⟨rfl, rfl⟩
  | .badZip => dsimp only; split <;> exact ⟨rfl, rfl⟩
  | .ioErr st =>
    dsimp only
    split
    · unfold symbolsIOErrorHandler
      match st with
      | .pynone => exact ⟨rfl, rfl⟩
      | .str s => exact ⟨rfl, rfl⟩
      | .exc m => exact ⟨rfl, rfl⟩
      | .envErr v m =>
        dsimp only [getattrStrerror]
        match v with
        | .pynone => exact ⟨rfl, rfl⟩
        | .str s => exact ⟨rfl, rfl⟩
        | .exc m2 => dsimp only [getattrMessage]; split <;> exact ⟨rfl, rfl⟩
        | .envErr v2 m2 => dsimp only [getattrMessage]; split <;> exact ⟨rfl, rfl⟩
    · exact ⟨rfl, rfl⟩

theorem getTests_preserves (env : GetEnv) (u k : String) (force eu : Bool)
    (fs : CacheFS) :
    ((getTests env u k force eu fs).1).downloadCount = fs.downloadCount ∧
    (((getTests env u k force eu fs).1).entries.find? (fun e => e.key == k)).map
        Entry.lastused =
      (fs.entries.find? (fun e => e.key == k)).map Entry.lastused := by
  have hmap : ∀ (f : Entry → Entry), (∀ e, (f e).key = e.key) →
      (∀ e, (f e).lastused = e.lastused) → ∀ (es : List Entry),
      ((setEntry k f es).find? (fun e => e.key == k)).map Entry.lastused =
        (es.find? (fun e => e.key == k)).map Entry.lastused := by
    intro f hk hl es
    rw [find?_setEntry_self k f hk]
    cases es.find? (fun e => e.key == k) <;> simp [hl]
  unfold getTests
  split
  · dsimp only
    split
    · match env.testsFetch with
      | .ioErr st => exact ⟨rfl, rfl⟩
      | .badZip => exact ⟨rfl, rfl⟩
      | .ok =>
        dsimp only
        match env.robocopFetch with
        | .ioErr st =>
          exact ⟨rfl, hmap (fun e => { e with hasTests := true }) (fun e => rfl)
            (fun e => rfl) _⟩
        | .ok =>
          dsimp only
          match env.fennecIdsFetch with
          | .ioErr st =>
            refine ⟨rfl, ?_⟩
            dsimp only
            rw [hmap (fun e => { e with hasRobocop := true }) (fun e => rfl) (fun e => rfl),
              hmap (fun e => { e with hasTests := true }) (fun e => rfl) (fun e => rfl)]
          | .ok =>
            refine ⟨rfl, ?_⟩
            dsimp only
            rw [hmap (fun e => { e with hasFennecIds := true }) (fun e => rfl) (fun e => rfl),
              hmap (fun e => { e with hasRobocop := true }) (fun e => rfl) (fun e => rfl),
              hmap (fun e => { e with hasTests := true }) (fun e => rfl) (fun e => rfl)]
    · exact ⟨rfl, rfl⟩
  · exact ⟨rfl, rfl⟩

theorem getPrimary_skip (env : GetEnv) (u k : String) (fs : CacheFS)
    (h : fs.entries.any (fun e => e.key == k && e.hasApk) = true) :
    getPrimary env u k false fs = (fs, true) := by
  unfold getPrimary
  simp [h]

theorem getPrimary_find?_isSome (env : GetEnv) (u k : String) (force : Bool)
    (fs : CacheFS)
    (h : (fs.entries.find? (fun e => e.key == k)).isSome = true) :
    (((getPrimary env u k force fs).1).entries.find?
      (fun e => e.key == k)).isSome = true := by
  unfold getPrimary
  by_cases hc : (force || !(fs.entries.any fun e => e.key == k && e.hasApk)) = true
  · rw [if_pos hc]
    match env.apkFetch with
    | .ioErr st => exact h
    | .ok =>
      dsimp only
      rw [find?_setEntry_self k (fun e => { e with hasApk := true }) (fun e => rfl)]
      simpa using h
  · rw [if_neg hc]
    exact h

theorem touchLastused_find? (now : Nat) (k : String) (fs : CacheFS)
    (h : (fs.entries.find? (fun e => e.key == k)).isSome = true) :
    (((touchLastused now k fs).entries.find? (fun e => e.key == k)).map
      Entry.lastused) = some (some now) := by
  unfold touchLastused
  dsimp only
  rw [find?_setEntry_self k (fun e => { e with lastused := some now }) (fun e => rfl)]
  cases hf : fs.entries.find? (fun e => e.key == k) with
  | none => rw [hf] at h; simp at h
  | some e => simp

theorem getAfterMakedirs_downloadCount_skip (now : Nat) (env : GetEnv)
    (buildurl k : String) (eu : Bool) (fs : CacheFS)
    (h : fs.entries.any (fun e => e.key == k && e.hasApk) = true) :
    ((getAfterMakedirs now env buildurl k eu false fs).1).downloadCount =
      fs.downloadCount := by
  unfold getAfterMakedirs
  rw [getPrimary_skip env buildurl k fs h]
  dsimp only
  rcases hsym : getSymbols env buildurl k false (touchLastused now k fs) with ⟨fs3, r3⟩
  have hs1 := (getSymbols_preserves env buildurl k false (touchLastused now k fs)).1
  rw [hsym] at hs1
  cases r3 with
  | error err => exact hs1
  | ok u =>
    cases u
    dsimp only
    rcases htst : getTests env buildurl k false eu fs3 with ⟨fs4, r4⟩
    have ht1 := (getTests_preserves env buildurl k false eu fs3).1
    rw [htst] at ht1
    cases r4 with
    | error err => exact ht1.trans hs1
    | ok b => cases b <;> exact ht1.trans hs1

theorem getAfterMakedirs_lastused (now : Nat) (env : GetEnv) (buildurl k : String)
    (eu force : Bool) (fs : CacheFS) (d : String)
    (hsome : (fs.entries.find? (fun e => e.key == k)).isSome = true)
    (hret : (getAfterMakedirs now env buildurl k eu force fs).2 = Except.ok (some d)) :
    ∃ e, ((getAfterMakedirs now env buildurl k eu force fs).1).entries.find?
        (fun x => x.key == k) = some e ∧ e.lastused = some now := by
  unfold getAfterMakedirs at hret ⊢
  rcases hp : getPrimary env buildurl k force fs with ⟨fsP, flag⟩
  rw [hp] at hret
  cases flag with
  | false => simp at hret
  | true =>
    dsimp only at hret ⊢
    have hPsome : (fsP.entries.find? (fun e => e.key == k)).isSome = true := by
      have h2 := getPrimary_find?_isSome env buildurl k force fs hsome
      rw [hp] at h2; exact h2
    have htouch := touchLastused_find? now k fsP hPsome
    rcases hsym : getSymbols env buildurl k force (touchLastused now k fsP) with ⟨fs3, r3⟩
    rw [hsym] at hret
    have hs2 := (getSymbols_preserves env buildurl k force (touchLastused now k fsP)).2
    rw [hsym] at hs2
    cases r3 with
    | error err => simp at hret
    | ok u =>
      cases u
      dsimp only at hret ⊢
      rcases htst : getTests env buildurl k force eu fs3 with ⟨fs4, r4⟩
      rw [htst] at hret
      have ht2 := (getTests_preserves env buildurl k force eu fs3).2
      rw [htst] at ht2
      cases r4 with
      | error err => simp at hret
      | ok b =>
        cases b with
        | false => simp at hret
        | true =>
          dsimp only
          have hchain : (fs4.entries.find? (fun e => e.key == k)).map Entry.lastused =
              some (some now) := by rw [ht2, hs2, htouch]
          cases hf : fs4.entries.find? (fun e => e.key == k) with
          | none => rw [hf] at hchain; simp at hchain
          | some e =>
            rw [hf] at hchain
            exact ⟨e, rfl, by simpa using hchain⟩

theorem find?_key_eq (k : String) (l : List Entry) (e : Entry)
    (h : l.find? (fun x => x.key == k) = some e) : e.key = k := by
  have h2 := List.find?_some h
  simpa using h2

/-- **C5.** Without `force`, `get` skips the primary-artifact download
whenever `build.apk` is already in the cache entry (no `urlretrieve` of
the build URL is issued, so the download count is unchanged), and every
`get` that returns a directory sets the `lastused` marker's mtime to the
current time (builds.py line 241 runs unconditionally on the success
path, after the primary artifact is ensured). -/
theorem get_no_redownload_and_touches_lastused (now : Nat) (env : GetEnv)
    (buildurl : String) (eu force : Bool) (fs : CacheFS) :
    ((∃ e, fs.entries.find? (fun x => x.key == b64encode buildurl) = some e ∧
        e.hasApk = true) → force = false →
      ((get none now env buildurl eu force fs).1).downloadCount = fs.downloadCount) ∧
    (∀ d, (get none now env buildurl eu force fs).2 = Except.ok (some d) →
      ∃ e, ((get none now env buildurl eu force fs).1).entries.find?
          (fun x => x.key == b64encode buildurl) = some e ∧
        e.lastused = some now) := by
  constructor
  · rintro ⟨e, hfind, hapk⟩ hforce
    subst hforce
    simp only [get]
    generalize hkk : b64encode buildurl = k at hfind ⊢
    have hfind1 : (clean_cache now [k] fs.entries).find? (fun x => x.key == k) = some e := by
      rw [clean_cache_find?_preserved, hfind]
    have hmem1 : e ∈ clean_cache now [k] fs.entries :=
      List.mem_of_find?_eq_some hfind1
    have hkey : e.key = k := find?_key_eq k _ e hfind1
    have hany : (clean_cache now [k] fs.entries).any (fun x => x.key == k) = true :=
      List.any_eq_true.mpr ⟨e, hmem1, by simp [hkey]⟩
    have hany2 : (clean_cache now [k] fs.entries).any
        (fun x => x.key == k && x.hasApk) = true :=
      List.any_eq_true.mpr ⟨e, hmem1, by simp [hkey, hapk]⟩
    rw [if_pos hany]
    exact getAfterMakedirs_downloadCount_skip now env buildurl k eu _ hany2
  · intro d hret
    simp only [get] at hret ⊢
    generalize hkk : b64encode buildurl = k at hret ⊢
    by_cases hany : (clean_cache now [k] fs.entries).any (fun x => x.key == k) = true
    · rw [if_pos hany] at hret ⊢
      have hsome : ((clean_cache now [k] fs.entries).find?
          (fun x => x.key == k)).isSome = true := by
        rcases List.any_eq_true.mp hany with ⟨x, hx, hpx⟩
        exact List.find?_isSome.mpr ⟨x, hx, hpx⟩
      exact getAfterMakedirs_lastused now env buildurl k eu force _ d hsome hret
    · rw [if_neg hany] at hret ⊢
      have hsome : (((clean_cache now [k] fs.entries) ++ [Entry.fresh k]).find?
          (fun x => x.key == k)).isSome = true := by
        rw [List.find?_append]
        have hfr : List.find? (fun x => x.key == k) [Entry.fresh k] =
            some (Entry.fresh k) :=
          List.find?_cons_of_pos _ (by simp [Entry.fresh])
        simp [hfr]
      exact getAfterMakedirs_lastused now env buildurl k eu force _ d hsome hret

/-- A `GetEnv` in which every download succeeds. -/
def envAllOk : GetEnv := ⟨.ok, .ok, .ok, .ok, .ok⟩

def c5entry : Entry := ⟨b64encode "u", true, some 50, false, false, false, false⟩

def c5fs : CacheFS := ⟨[c5entry], 7, []⟩

/-- Witness for C5: a cache already holding the primary artifact for the
build URL `"u"`; `get` without `force` leaves the download count at 7 and
stamps `lastused` with the current time 100. -/
theorem get_no_redownload_and_touches_lastused_witness :
    (∃ e, c5fs.entries.find? (fun x => x.key == b64encode "u") = some e ∧
        e.hasApk = true) ∧
    ((get none 100 envAllOk "u" false false c5fs).1).downloadCount =
      c5fs.downloadCount ∧
    (get none 100 envAllOk "u" false false c5fs).2 =
      Except.ok (some (cache_dir ++ "/" ++ b64encode "u")) ∧
    (∃ e, ((get none 100 envAllOk "u" false false c5fs).1).entries.find?
        (fun x => x.key == b64encode "u") = some e ∧ e.lastused = some 100) := by
  have hret : (get none 100 envAllOk "u" false false c5fs).2 =
      Except.ok (some (cache_dir ++ "/" ++ b64encode "u")) := by
    simp [get, getAfterMakedirs, getPrimary, getSymbols, getTests, touchLastused,
      clean_cache, clean_cache_removed_keys, clean_cache_eligible, keep_build,
      setEntry, envAllOk, c5fs, c5entry, Entry.fresh]
  refine ⟨⟨c5entry, by decide, rfl⟩, ?_, hret, ?_⟩
  · exact (get_no_redownload_and_touches_lastused 100 envAllOk "u" false false c5fs).1
      ⟨c5entry, by decide, rfl⟩ rfl
  · exact (get_no_redownload_and_touches_lastused 100 envAllOk "u" false false c5fs).2
      _ hret

theorem getAfterMakedirs_primary_fail (now : Nat) (env : GetEnv)
    (buildurl k : String) (eu : Bool) (fs : CacheFS) (st : PyStrerror)
    (hfail : env.apkFetch = .ioErr st)
    (hnoapk : fs.entries.any (fun e => e.key == k && e.hasApk) = false) :
    getAfterMakedirs now env buildurl k eu false fs =
      ({ fs with downloadCount := fs.downloadCount + 1,
                 log := fs.log ++ ["IO Error retrieving build: " ++ buildurl ++ "."] },
        Except.ok none) := by
  unfold getAfterMakedirs
  have hp : getPrimary env buildurl k false fs =
      ({ fs with downloadCount := fs.downloadCount + 1,
                 log := fs.log ++ ["IO Error retrieving build: " ++ buildurl ++ "."] },
        false) := by
    simp [getPrimary, hnoapk, hfail]
  rw [hp]

/-- **C6.** When the primary-artifact download raises `IOError` (and the
artifact is not already cached), `get` with tests disabled returns `None`
(no directory), appends the failure to the log, and leaves no
`build.apk` in the entry: the download went to a temporary file which is
unlinked in the handler, so no partial primary artifact ever appears in
the cache directory. -/
theorem get_primary_ioerror_clean (now : Nat) (env : GetEnv) (buildurl : String)
    (fs : CacheFS) (st : PyStrerror) (hfail : env.apkFetch = .ioErr st)
    (habsent : ∀ e ∈ fs.entries, e.key = b64encode buildurl → e.hasApk = false) :
    (get none now env buildurl false false fs).2 = Except.ok none ∧
    (∀ e ∈ ((get none now env buildurl false false fs).1).entries,
        e.key = b64encode buildurl → e.hasApk = false) ∧
    ((get none now env buildurl false false fs).1).log =
      fs.log ++ ["IO Error retrieving build: " ++ buildurl ++ "."] := by
  simp only [get]
  generalize hkk : b64encode buildurl = k at habsent ⊢
  have hclean : ∀ e ∈ clean_cache now [k] fs.entries, e.key = k → e.hasApk = false := by
    intro e he hk2
    have he' : e ∈ fs.entries := (List.mem_filter.mp he).1
    exact habsent e he' hk2
  by_cases hany : (clean_cache now [k] fs.entries).any (fun e => e.key == k) = true
  · rw [if_pos hany]
    have hnoapk : (clean_cache now [k] fs.entries).any
        (fun e => e.key == k && e.hasApk) = false := by
      rw [List.any_eq_false]
      intro x hx hpx
      simp only [Bool.and_eq_true, beq_iff_eq] at hpx
      have := hclean x hx hpx.1
      rw [this] at hpx
      exact Bool.false_ne_true hpx.2
    rw [getAfterMakedirs_primary_fail now env buildurl k false _ st hfail hnoapk]
    exact ⟨rfl, hclean, rfl⟩
  · rw [if_neg hany]
    have hclean2 : ∀ e ∈ clean_cache now [k] fs.entries ++ [Entry.fresh k],
        e.key = k → e.hasApk = false := by
      intro e he hk2
      rcases List.mem_append.mp he with h1 | h2
      · exact hclean e h1 hk2
      · rcases List.mem_singleton.mp h2 with rfl
        rfl
    have hnoapk : (clean_cache now [k] fs.entries ++ [Entry.fresh k]).any
        (fun e => e.key == k && e.hasApk) = false := by
      rw [List.any_eq_false]
      intro x hx hpx
      simp only [Bool.and_eq_true, beq_iff_eq] at hpx
      have := hclean2 x hx hpx.1
      rw [this] at hpx
      exact Bool.false_ne_true hpx.2
    rw [getAfterMakedirs_primary_fail now env buildurl k false _ st hfail hnoapk]
    exact ⟨rfl, hclean2, rfl⟩

def c6env : GetEnv := ⟨.ioErr (.str "connection reset"), .ok, .ok, .ok, .ok⟩

/-- Witness for C6: an empty cache and a primary download that fails with
an `IOError`. -/
theorem get_primary_ioerror_clean_witness :
    c6env.apkFetch = FetchResult.ioErr (PyStrerror.str "connection reset") ∧
    (∀ e ∈ (⟨[], 3, []⟩ : CacheFS).entries, e.key = b64encode "u" → e.hasApk = false) ∧
    ((get none 100 c6env "u" false false ⟨[], 3, []⟩).2 = Except.ok none ∧
      (∀ e ∈ ((get none 100 c6env "u" false false ⟨[], 3, []⟩).1).entries,
          e.key = b64encode "u" → e.hasApk = false) ∧
      ((get none 100 c6env "u" false false ⟨[], 3, []⟩).1).log =
        [] ++ ["IO Error retrieving build: " ++ "u" ++ "."]) :=
  ⟨rfl, by simp,
    get_primary_ioerror_clean 100 c6env "u" ⟨[], 3, []⟩
      (PyStrerror.str "connection reset") rfl (by simp)⟩

def c7url : String := "http://x/fennec.apk"

def c7entry : Entry := ⟨b64encode c7url, true, some 100, false, false, false, false⟩

def c7fs : CacheFS := ⟨[c7entry], 0, []⟩

/-- Symbols fetch raises `IOError('ftp error', error_perm('550 Failed to
change directory.'))`: `strerror` is the `ftplib.error_perm` exception,
which has a `message` but no `strerror` attribute. -/
def c7envIO : GetEnv :=
  ⟨.ok, .ioErr (.exc "550 Failed to change directory."), .ok, .ok, .ok⟩

def c7envZip : GetEnv := ⟨.ok, .badZip, .ok, .ok, .ok⟩

/-- **C7 (code bug).** The claim says a failed symbols fetch — including
a not-found response — is non-fatal and only logged.  The corrupt-zip
half holds (second conjunct), but on an `IOError` the handler at
builds.py line 254 evaluates `ioerror.strerror.strerror.message`, and
`strerror` (an `ftplib` exception, a string, or `None`) has no
`strerror` attribute, so the handler itself raises an uncaught
`AttributeError` which propagates out of `get` instead of the logged
continuation. -/
theorem get_symbols_ioerror_raises :
    (get none 100 c7envIO c7url false false c7fs).2 =
      Except.error (PyErr.attributeError "strerror") ∧
    (get none 100 c7envZip c7url false false c7fs).2 =
      Except.ok (some (cache_dir ++ "/" ++ b64encode c7url)) := by
  constructor <;>
    simp [get, getAfterMakedirs, getPrimary, getSymbols, getTests, touchLastused,
      symbolsIOErrorHandler, getattrStrerror, clean_cache, clean_cache_removed_keys,
      clean_cache_eligible, keep_build, setEntry, c7envIO, c7envZip, c7fs, c7entry,
      Entry.fresh]

/-! ## `BuildCache.find_latest_build` (builds.py lines 152-161) -/

/-- Python 2 byte-string `<=`: lexicographic on byte values (for the
ASCII URLs compared here, the character code points), shorter string
first on a tie prefix. -/
def charListLe : List Char → List Char → Bool
  | [], _ => true
  | _ :: _, [] => false
  | a :: as, b :: bs =>
    if a.toNat < b.toNat then true
    else if b.toNat < a.toNat then false
    else charListLe as bs

def strLe (a b : String) : Bool := charListLe a.data b.data

theorem charListLe_refl : ∀ as, charListLe as as = true
  | [] => rfl
  | a :: as => by simp [charListLe, charListLe_refl as]

theorem charListLe_total : ∀ as bs, (charListLe as bs || charListLe bs as) = true
  | [], bs => by simp [charListLe]
  | a :: as, [] => by simp [charListLe]
  | a :: as, b :: bs => by
    by_cases h1 : a.toNat < b.toNat
    · simp [charListLe, h1]
    · by_cases h2 : b.toNat < a.toNat
      · simp [charListLe, h1, h2]
      · simpa [charListLe, h1, h2] using charListLe_total as bs

theorem charListLe_trans : ∀ as bs cs, charListLe as bs = true →
    charListLe bs cs = true → charListLe as cs = true
  | [], _, _, _, _ => rfl
  | a :: as, [], cs, h1, _ => by simp [charListLe] at h1
  | a :: as, b :: bs, [], _, h2 => by simp [charListLe] at h2
  | a :: as, b :: bs, c :: cs, h1, h2 => by
    simp only [charListLe] at h1 h2 ⊢
    by_cases hab : a.toNat < b.toNat <;> by_cases hba : b.toNat < a.toNat <;>
      simp only [hab, hba, if_pos, if_neg, if_true, if_false] at h1 <;>
      by_cases hbc : b.toNat < c.toNat <;> by_cases hcb : c.toNat < b.toNat <;>
      simp only [hbc, hcb, if_pos, if_neg, if_true, if_false] at h2 <;>
      [skip; skip; skip; skip; skip; skip; skip; skip; skip; skip; skip; skip;
        skip; skip; skip; skip] <;>
      first
      | simp at h1
      | simp at h2
      | (have hac : a.toNat < c.toNat := by omega
         simp [hac])
      | (have hac : ¬a.toNat < c.toNat := by omega
         have hca : ¬c.toNat < a.toNat := by omega
         simp only [hac, hca, if_neg, if_false]
         exact charListLe_trans as bs cs h1 h2)

theorem strLe_trans (a b c : String) : strLe a b → strLe b c → strLe a c :=
  fun h1 h2 => charListLe_trans a.data b.data c.data h1 h2

theorem strLe_total (a b : String) : (strLe a b || strLe b a) = true :=
  charListLe_total a.data b.data

theorem strLe_refl (a : String) : strLe a a = true := charListLe_refl a.data

/-- `BuildCache.find_latest_build` (builds.py lines 152-161) with the
FTP scan abstracted: `builds` is the URL list `find_builds` returned for
the window "now − 3 days .. now".  The code runs `builds.sort()` — which
sorts the URL *strings* — and returns `builds[-1]`; an empty list is
logged and reported as `None`. -/
def find_latest_build_core (builds : List String) : Option String :=
  if builds.isEmpty then none
  else (builds.mergeSort strLe).getLast?

def takeDigits : List Char → List Char × List Char
  | [] => ([], [])
  | c :: cs =>
    if c.isDigit then
      let dr := takeDigits cs
      (c :: dr.1, dr.2)
    else ([], c :: cs)

def digitsVal (ds : List Char) : Nat :=
  ds.foldl (fun a c => a * 10 + (c.toNat - 48)) 0

/-- One attempted match of the regex tail `-android\/([\d]+)\/` at this
position: `-android/` followed by one or more digits followed by `/`;
returns the digit group's value. -/
def androidStampAt (l : List Char) : Option Nat :=
  if "-android/".data.isPrefixOf l then
    let rest := l.drop 9
    let dr := takeDigits rest
    if dr.1.isEmpty then none
    else
      match dr.2 with
      | '/' :: _ => some (digitsVal dr.1)
      | _ => none
  else none

/-- Rightmost viable `-android/<digits>/` in the list: the regex's
greedy `.*` makes the last such match win. -/
def androidStamp : List Char → Option Nat
  | [] => none
  | c :: cs =>
    match androidStamp cs with
    | some v => some v
    | none => androidStampAt (c :: cs)

/-- The suffix following the first occurrence of `pat`, or `none`. -/
def afterFirst (pat : List Char) : List Char → Option (List Char)
  | [] => if pat.isEmpty then some [] else none
  | c :: cs =>
    if pat.isPrefixOf (c :: cs) then some ((c :: cs).drop pat.length)
    else afterFirst pat cs

/-- `Tinderbox.build_date_from_url` (builds.py lines 92-102):
`re.search('tinderbox-builds\\/.*-android\\/([\\d]+)\\/', url)` followed
by `datetime.fromtimestamp(int(group(1)))`; the resulting timestamp is
modelled as its epoch-seconds value.  `re.search` matches from the
leftmost feasible start, i.e. the first `tinderbox-builds/`, and the
greedy `.*` selects the last following `-android/<digits>/`. -/
def tinderbox_build_date_from_url (url : String) : Option Nat :=
  match afterFirst "tinderbox-builds/".data url.data with
  | none => none
  | some rest => androidStamp rest

theorem pairwise_getLast?_le {α : Type} (le : α → α → Bool)
    (hrefl : ∀ a, le a a = true) :
    ∀ (l : List α), l.Pairwise (fun a b => le a b) →
      ∀ m, l.getLast? = some m → ∀ b ∈ l, le b m = true := by
  intro l
  induction l with
  | nil => intro _ m hm; simp at hm
  | cons a l ih =>
    intro hpw m hm b hb
    rcases List.pairwise_cons.mp hpw with ⟨ha, hl⟩
    cases l with
    | nil =>
      have hm' : m = a := by simpa using hm.symm
      have hb' : b = a := by simpa using hb
      subst hm'; subst hb'
      exact hrefl b
    | cons c cs =>
      rw [List.getLast?_cons_cons] at hm
      rcases List.mem_cons.mp hb with rfl | hb2
      · exact ha m (List.mem_of_getLast?_eq_some hm)
      · exact ih hl m hm b hb2

/-- **C8 (amended).** On a non-empty `builds` list `find_latest_build`
returns an element that is greatest in the *byte-string order on URLs*
(since `builds.sort()` sorts the URL strings), and on an empty window it
returns `None` rather than raising. -/
theorem find_latest_build_core_spec (builds : List String) :
    (builds = [] → find_latest_build_core builds = none) ∧
    (builds ≠ [] → ∃ m, find_latest_build_core builds = some m ∧ m ∈ builds ∧
      ∀ b ∈ builds, strLe b m = true) := by
  constructor
  · rintro rfl; rfl
  · intro hne
    unfold find_latest_build_core
    rw [if_neg (by simpa using hne)]
    have hsorted : (builds.mergeSort strLe).Pairwise (fun a b => strLe a b) :=
      List.sorted_mergeSort (fun a b c => strLe_trans a b c) strLe_total builds
    have hne2 : builds.mergeSort strLe ≠ [] := by
      intro h0
      apply hne
      have hlen : (builds.mergeSort strLe).length = builds.length :=
        List.length_mergeSort builds
      rw [h0] at hlen
      exact List.length_eq_zero.mp hlen.symm
    obtain ⟨m, hm⟩ := Option.isSome_iff_exists.mp (List.getLast?_isSome.mpr hne2)
    refine ⟨m, hm, ?_, ?_⟩
    · exact List.mem_mergeSort.mp (List.mem_of_getLast?_eq_some hm)
    · intro b hb
      exact pairwise_getLast?_le strLe strLe_refl _ hsorted m hm b
        (List.mem_mergeSort.mpr hb)

/-- Witness for the amended C8 at a concrete two-URL list. -/
theorem find_latest_build_core_spec_witness :
    (["b", "a"] : List String) ≠ [] ∧
    (∃ m, find_latest_build_core ["b", "a"] = some m ∧ m ∈ ["b", "a"] ∧
      ∀ b ∈ ["b", "a"], strLe b m = true) :=
  ⟨by decide, (find_latest_build_core_spec ["b", "a"]).2 (by decide)⟩

def c8urlCentral : String :=
  "ftp://ftp.mozilla.org/pub/mozilla.org/mobile/tinderbox-builds/mozilla-central-android/1361236456/fennec-21.0a1.en-US.android-arm.apk"

def c8urlInbound : String :=
  "ftp://ftp.mozilla.org/pub/mozilla.org/mobile/tinderbox-builds/mozilla-inbound-android/1361136456/fennec-21.0a1.en-US.android-arm.apk"

/-- **C8 (counterexample).** Two tinderbox builds whose timestamps are
about 28 hours apart (so both fit one 3-day window): the build with the
*smaller* timestamp (mozilla-inbound, 1361136456) sorts lexicographically
after the mozilla-central URL ('i' > 'c' earlier in the string than the
timestamp), so `find_latest_build` returns it rather than the
maximum-timestamp build. -/
theorem find_latest_build_core_not_max_timestamp :
    find_latest_build_core [c8urlCentral, c8urlInbound] = some c8urlInbound ∧
    tinderbox_build_date_from_url c8urlInbound = some 1361136456 ∧
    tinderbox_build_date_from_url c8urlCentral = some 1361236456 ∧
    1361136456 < 1361236456 := by
  have hsorted : List.mergeSort [c8urlCentral, c8urlInbound] strLe =
      [c8urlCentral, c8urlInbound] :=
    List.mergeSort_of_sorted (by decide)
  refine ⟨?_, ?_, ?_, by decide⟩
  · unfold find_latest_build_core
    rw [if_neg (by decide), hsorted]
    rfl
  · decide
  · decide

/-! ## `AutoPhone` — job pipeline and validation (autophone.py) -/

/-- A job dictionary as handled by `AutoPhone.build_job` /
`is_valid_job`; a field of `none` means the key is absent from the
dict. -/
structure JobDict where
  cache_build_dir : Option String := none
  tree : Option String := none
  blddate : Option Int := none
  buildid : Option String := none
  revision : Option String := none
  androidprocname : Option String := none
  version : Option String := none
  bldtype : Option String := none
deriving DecidableEq, Repr

/-- `AutoPhone.__init__` (autophone.py lines 79-137) assigns
`_test_path`, `_cache`, `ipaddr`, `port`, `logfile`, `loglevel`,
`mailer`, `build_cache`, `_stop`, `_next_worker_num`, `phone_workers`,
`worker_lock`, `cmd_lock`, `_tests`, `worker_msg_queue`, `server`,
`server_thread`, `pulsemonitor` and `enable_unittests`; no method of the
class ever sets a `logger` attribute, so `self.logger` (line 477) raises
`AttributeError`. -/
def autophone_has_logger : Bool := false

/-- The `error_list` built by `AutoPhone.is_valid_job` (autophone.py
lines 458-473), in source order. -/
def missing_fields (j : JobDict) : List String :=
  (if j.androidprocname.isNone then ["missing androidprocname"] else []) ++
  (if j.revision.isNone then ["missing revision"] else []) ++
  (if j.blddate.isNone then ["missing blddate"] else []) ++
  (if j.bldtype.isNone then ["missing bldtype"] else []) ++
  (if j.version.isNone then ["missing version"] else [])

/-- `AutoPhone.is_valid_job` (autophone.py lines 454-480).  A `None` job
returns `False`; a job with missing keys builds `error_message` (the
`%s` dict rendering abbreviated) and then executes
`self.logger.error(error_message)` *before* `raise NameError(...)` — and
since the object has no `logger` attribute, that line raises
`AttributeError`, so the `NameError` branch is unreachable. -/
def is_valid_job (job : Option JobDict) : Except PyErr Bool :=
  match job with
  | none => .ok false
  | some j =>
    let error_list := missing_fields j
    if error_list.length > 0 then
      let error_message := "ERROR: Invalid job configuration: <job> " ++
        String.intercalate ", " error_list
      if autophone_has_logger then .error (.nameError error_message)
      else .error (.attributeError "logger")
    else .ok true

/-- `AutoPhone.start_tests` (autophone.py lines 206-213): an invalid job
returns before any worker is touched; a valid job is added to every
registered worker.  The result is the list of workers that received the
job. -/
def start_tests (workers : List String) (job : Option JobDict) :
    Except PyErr (List String) :=
  match is_valid_job job with
  | .error e => .error e
  | .ok false => .ok []
  | .ok true => .ok workers

/-- The `application.ini` fields read by `build_job` (autophone.py lines
423-426). -/
structure AppIni where
  rev : String
  ver : String
  repo : String
  buildid : String
deriving DecidableEq, Repr

/-- `AutoPhone.build_job` (autophone.py lines 406-452).  `extract_ok` is
whether `apkfile.extract('application.ini', tmpdir)` succeeded (a corrupt
apk raises `BadZipfile`, which is caught: the job is aborted with
`None`); `blddate` is the timestamp parsed from the fixed-width buildid.
The local `procname` is initialised to `''` before the repository
lookup, but `tree` is *not* initialised: when the repository is none of
the four known URLs, evaluating `tree` during the job-dict construction
raises Python's unbound-local `NameError`. -/
def build_job (cache_build_dir : Option String) (extract_ok : Bool)
    (ini : AppIni) (blddate : Int) : Except PyErr (Option JobDict) :=
  match cache_build_dir with
  | none => .ok none
  | some dir =>
    if !extract_ok then .ok none
    else
      let procname := ""
      let tp : Option String × String :=
        if ini.repo = "http://hg.mozilla.org/mozilla-central" then
          (some "mozilla-central", "org.mozilla.fennec")
        else if ini.repo = "http://hg.mozilla.org/integration/mozilla-inbound" then
          (some "mozilla-inbound", "org.mozilla.fennec")
        else if ini.repo = "http://hg.mozilla.org/releases/mozilla-aurora" then
          (some "mozilla-aurora", "org.mozilla.fennec_aurora")
        else if ini.repo = "http://hg.mozilla.org/releases/mozilla-beta" then
          (some "mozilla-beta", "org.mozilla.firefox")
        else (none, procname)
      match tp.1 with
      | none => .error (.unboundLocal "tree")
      | some tree =>
        .ok (some { cache_build_dir := some dir, tree := some tree,
                    blddate := some blddate, buildid := some ini.buildid,
                    revision := some ini.rev, androidprocname := some tp.2,
                    version := some ini.ver, bldtype := some "opt" })

/-- The dispatch path shared by `AutoPhone.trigger_jobs` and the pulse
callback `on_build` (autophone.py lines 366-370, 377-387):
`start_tests(build_job(...))`, with build acquisition abstracted into
its outcome. -/
def trigger_jobs_pipeline (workers : List String) (cache_build_dir : Option String)
    (extract_ok : Bool) (ini : AppIni) (blddate : Int) :
    Except PyErr (List String) :=
  match build_job cache_build_dir extract_ok ini blddate with
  | .error e => .error e
  | .ok job => start_tests workers job

/-! ## `AutoPhone.check_for_dead_workers` (autophone.py lines 153-181) -/

/-- Worker-status constants of `phonetest.PhoneTestMessage`.
Modelled from the spec: `phonetest.py` is not among the sources; §3
gives the status set "disconnected/idle/working/disabled". -/
inductive PhoneStatus where
  | disabled
  | disconnected
  | idle
  | working
deriving DecidableEq, Repr

/-- Modelled from the spec: `worker.py` is not among the sources; §3/§6
describe the worker's crash accounting as a counter with `add_crash()`
and a `too_many_crashes()` threshold predicate over it.  The counter is
a `Nat`; the predicate is kept abstract (`tooMany` below).  `startedWith`
records the initial state passed to the last `worker.start(...)`. -/
structure Worker where
  alive : Bool
  crashes : Nat
  startedWith : Option PhoneStatus
  stopped : Bool
deriving DecidableEq, Repr

/-- One worker's treatment in `AutoPhone.check_for_dead_workers`
(autophone.py lines 156-174): if the worker is not alive, it is stopped,
`add_crash()` is called, and it is restarted with `DISABLED` as initial
state when `too_many_crashes()` holds after the increment, else with
`DISCONNECTED`. -/
def check_worker (tooMany : Nat → Bool) (w : Worker) : Worker :=
  if w.alive then w
  else
    let crashes := w.crashes + 1
    let initial : PhoneStatus :=
      if tooMany crashes then .disabled else .disconnected
    { w with stopped := true, crashes := crashes, startedWith := some initial }

/-- The liveness sweep over every registered worker. -/
def check_for_dead_workers (tooMany : Nat → Bool) (ws : List Worker) : List Worker :=
  ws.map (check_worker tooMany)

/-- **C3.** On each sweep, every non-alive worker has its crash counter
incremented, and is restarted into the disabled initial state exactly
when the threshold predicate holds on the incremented count, and into
the disconnected initial state otherwise. -/
theorem check_for_dead_workers_policy (tooMany : Nat → Bool) (ws : List Worker)
    (w : Worker) (hmem : w ∈ ws) (hdead : w.alive = false) :
    check_worker tooMany w ∈ check_for_dead_workers tooMany ws ∧
    (check_worker tooMany w).crashes = w.crashes + 1 ∧
    ((check_worker tooMany w).startedWith = some PhoneStatus.disabled ↔
      tooMany (w.crashes + 1) = true) ∧
    ((check_worker tooMany w).startedWith = some PhoneStatus.disconnected ↔
      tooMany (w.crashes + 1) = false) := by
  refine ⟨List.mem_map_of_mem _ hmem, ?_, ?_, ?_⟩ <;>
    simp only [check_worker, hdead, Bool.false_eq_true, if_false] <;>
    by_cases h : tooMany (w.crashes + 1) = true <;>
    simp [h]

def c3worker : Worker := ⟨false, 2, none, false⟩

/-- Witness for C3: a dead worker with 2 prior crashes and the threshold
predicate "more than 2 crashes" — the third detection disables it. -/
theorem check_for_dead_workers_policy_witness :
    c3worker ∈ [c3worker] ∧ c3worker.alive = false ∧
    (check_worker (fun n => decide (2 < n)) c3worker ∈
        check_for_dead_workers (fun n => decide (2 < n)) [c3worker] ∧
      (check_worker (fun n => decide (2 < n)) c3worker).crashes =
        c3worker.crashes + 1 ∧
      ((check_worker (fun n => decide (2 < n)) c3worker).startedWith =
          some PhoneStatus.disabled ↔ decide (2 < c3worker.crashes + 1) = true) ∧
      ((check_worker (fun n => decide (2 < n)) c3worker).startedWith =
          some PhoneStatus.disconnected ↔
        decide (2 < c3worker.crashes + 1) = false)) :=
  ⟨by decide, rfl,
    check_for_dead_workers_policy (fun n => decide (2 < n)) [c3worker] c3worker
      (by decide) rfl⟩

def c4jobMissing : JobDict :=
  { tree := some "mozilla-central", androidprocname := some "org.mozilla.fennec",
    bldtype := some "opt", version := some "21.0a1" }

def c4jobFull : JobDict :=
  { cache_build_dir := some "builds/x", tree := some "mozilla-central",
    blddate := some 1361136456, buildid := some "20130217030204",
    revision := some "abc123", androidprocname := some "org.mozilla.fennec",
    version := some "21.0a1", bldtype := some "opt" }

/-- **C4 (code bug).** On a descriptor missing `revision` and `blddate`,
`is_valid_job` builds the error list naming both missing fields, but then
evaluates `self.logger.error(...)` — and `AutoPhone` has no `logger`
attribute, so what is raised is `AttributeError` (whose message names no
missing field), not the intended descriptive `NameError`.  On a fully
populated descriptor it returns `True` as claimed. -/
theorem is_valid_job_attribute_error :
    is_valid_job (some c4jobMissing) = Except.error (PyErr.attributeError "logger") ∧
    missing_fields c4jobMissing = ["missing revision", "missing blddate"] ∧
    is_valid_job (some c4jobFull) = Except.ok true :=
  ⟨rfl, rfl, rfl⟩

def c9ini : AppIni :=
  ⟨"abc123", "21.0a1", "http://hg.mozilla.org/projects/birch", "20130217030204"⟩

/-- **C9 (counterexample).** A build whose metadata declares the
repository `http://hg.mozilla.org/projects/birch` (outside the lookup
table): `build_job` raises the unbound-local error on `tree` at the
job-dict construction, so there is *no* resulting descriptor with unset
fields, and `is_valid_job` is never reached. -/
theorem build_job_unknown_repo_raises :
    build_job (some "builds/x") true c9ini 1361136456 =
      Except.error (PyErr.unboundLocal "tree") ∧
    (∀ j : JobDict, build_job (some "builds/x") true c9ini 1361136456 ≠
      Except.ok (some j)) :=
  ⟨rfl, fun _ h => Except.noConfusion ((rfl :
      build_job (some "builds/x") true c9ini 1361136456 =
        Except.error (PyErr.unboundLocal "tree")) ▸ h)⟩

/-- **C9 (amended).** For every build whose metadata declares a
source-repository URL outside the fixed lookup table, `build_job` raises
an unbound-local error on `tree` (the local is never assigned) and
produces no descriptor; the trigger pipeline therefore dispatches the
job to no worker — the exception propagates before `start_tests`
runs. -/
theorem build_job_unknown_repo_spec (dir : String) (ini : AppIni) (blddate : Int)
    (workers : List String)
    (h1 : ini.repo ≠ "http://hg.mozilla.org/mozilla-central")
    (h2 : ini.repo ≠ "http://hg.mozilla.org/integration/mozilla-inbound")
    (h3 : ini.repo ≠ "http://hg.mozilla.org/releases/mozilla-aurora")
    (h4 : ini.repo ≠ "http://hg.mozilla.org/releases/mozilla-beta") :
    build_job (some dir) true ini blddate =
      Except.error (PyErr.unboundLocal "tree") ∧
    trigger_jobs_pipeline workers (some dir) true ini blddate =
      Except.error (PyErr.unboundLocal "tree") := by
  have hb : build_job (some dir) true ini blddate =
      Except.error (PyErr.unboundLocal "tree") := by
    unfold build_job
    simp [h1, h2, h3, h4]
  refine ⟨hb, ?_⟩
  unfold trigger_jobs_pipeline
  rw [hb]

/-- Witness for the amended C9. -/
theorem build_job_unknown_repo_spec_witness :
    c9ini.repo ≠ "http://hg.mozilla.org/mozilla-central" ∧
    c9ini.repo ≠ "http://hg.mozilla.org/integration/mozilla-inbound" ∧
    c9ini.repo ≠ "http://hg.mozilla.org/releases/mozilla-aurora" ∧
    c9ini.repo ≠ "http://hg.mozilla.org/releases/mozilla-beta" ∧
    (build_job (some "builds/x") true c9ini 1361136456 =
        Except.error (PyErr.unboundLocal "tree") ∧
      trigger_jobs_pipeline ["phone1"] (some "builds/x") true c9ini 1361136456 =
        Except.error (PyErr.unboundLocal "tree")) :=
  ⟨by decide, by decide, by decide, by decide,
    build_job_unknown_repo_spec "builds/x" c9ini 1361136456 ["phone1"]
      (by decide) (by decide) (by decide) (by decide)⟩

/-- **C10.** A `None` job (as `build_job` produces when no build is
available or the artifact is corrupt) makes `is_valid_job` return
`False` without raising, and `start_tests` then dispatches the job to no
worker. -/
theorem null_job_not_dispatched :
    is_valid_job none = Except.ok false ∧
    (∀ workers : List String, start_tests workers none = Except.ok []) ∧
    (∀ (eok : Bool) (ini : AppIni) (d : Int),
      build_job none eok ini d = Except.ok none) ∧
    (∀ (dir : String) (ini : AppIni) (d : Int),
      build_job (some dir) false ini d = Except.ok none) :=
  ⟨rfl, fun _ => rfl, fun _ _ _ => rfl, fun _ _ _ => rfl⟩

end Autophone
